import Mathlib

/-!
Verification development for the AI_Farmer_Bot repository
(`src/streamlit_app.py`).

The core being verified is the knowledge-base loader
(`load_any_kb`), the flattening step (`flatten_kb`), the heuristic
answer matcher (`get_bot_response`) and the rewrite wrapper
(`get_hf_response`).  Python strings are embedded as Lean `String`s
(operated on through their character lists), Python `float` scores are
embedded as `ℚ` (every score is a finite sum of the exact dyadic
constants 1.0, 2.0 and 0.5, so rational arithmetic is exact and
faithful), JSON values as the inductive `Json` below, Python dicts as
insertion-ordered association lists, and Python exceptions as
`Except String`.
-/
set_option maxHeartbeats 1000000

/-- Embedding of `str.lower()` (the knowledge base and the claims are
ASCII, where `Char.toLower` agrees with Python). -/
def pyLower (s : String) : String := ⟨s.data.map Char.toLower⟩

/-- Embedding of `str.strip()` with no argument: drop whitespace from
both ends. -/
def pyStrip (s : String) : String :=
  ⟨(((s.data.dropWhile Char.isWhitespace).reverse.dropWhile Char.isWhitespace).reverse)⟩

/-- Helper for `pyTokens`: accumulates the current word (reversed) and
splits on whitespace runs, producing no empty words. -/
def pyTokensAux : List Char → List Char → List (List Char)
  | [], cur => if cur = [] then [] else [cur.reverse]
  | c :: cs, cur =>
    if c.isWhitespace then
      if cur = [] then pyTokensAux cs [] else cur.reverse :: pyTokensAux cs []
    else pyTokensAux cs (c :: cur)

/-- Embedding of `str.split()` with no argument: split on whitespace
runs, discarding empty pieces (so leading/trailing whitespace yields
nothing). -/
def pyTokens (s : String) : List String := (pyTokensAux s.data []).map String.mk

/-- Embedding of the Python substring test `a in b` for strings:
`a.data` occurs as a contiguous infix of `b.data`. -/
def pyIn (a b : String) : Bool := decide (a.data <:+: b.data)

/-- Embedding of `set(s.split())`: the (finite) set of whitespace
tokens of `s`. -/
def tokenSet (s : String) : Finset String := (pyTokens s).toFinset

/-- First-match association-list lookup; embeds lookup in an
insertion-ordered Python dict (whose keys are unique, so first match
is the only match). -/
def alookup (k : String) : List (String × α) → Option α
  | [] => none
  | kv :: t => if kv.1 = k then some kv.2 else alookup k t

/-!
## The answer matcher (`get_bot_response`, lines 95-119)
-/
/-- The fixed category-keyword table (`cat_keywords`, lines 101-105),
as the insertion-ordered list of key/value pairs of the Python dict
literal. -/
def cat_keywords : List (String × List String) :=
  [("fertilizer", ["fertilizer", "manure", "nutrient"]),
   ("pests", ["pest", "insect", "worm", "spray"]),
   ("irrigation", ["irrigation", "water", "watering"]),
   ("weather", ["weather", "rain", "forecast"]),
   ("soil", ["soil", "ph", "testing"]),
   ("market", ["price", "market", "msp", "sell"])]

/-- Line 111: `if any(keyword in ui for keyword in
cat_keywords.get(category, [])): score += 1.0`.  The contribution of
the category-keyword signal to an entry's score. -/
def categorySignalScore (ui category : String) : ℚ :=
  if ((alookup category cat_keywords).getD []).any (fun kw => pyIn kw ui) then 1 else 0

/-- Line 112: `if ql in ui: score += 2.0`.  The contribution of the
substring-match signal (here `ql` is the lower-cased template). -/
def substringScore (ui ql : String) : ℚ :=
  if pyIn ql ui then 2 else 0

/-- Lines 113-115: `overlap = len(set(ui.split()) ∩ set(ql.split()))`
followed by `score += 0.5 * overlap`.  The contribution of the
token-overlap signal. -/
def overlapScore (ui ql : String) : ℚ :=
  (1 / 2) * ((tokenSet ui) ∩ (tokenSet ql)).card

/-- Lines 109-115: the score of one entry `(category, query, answer)`
against the normalized user input `ui`.  The loop body accumulates
`score` by the three `+=` statements above, so the final value is
their sum; `ql = query.lower()` (line 110) is computed once and used
by the second and third signal. -/
def entryScore (ui category query : String) : ℚ :=
  let ql := pyLower query
  categorySignalScore ui category + substringScore ui ql + overlapScore ui ql

/-- One iteration of the loop at lines 108-117: update the running
`(best_score, best_answer)` pair when the entry's score strictly
exceeds the best score seen so far (line 116). -/
def stepFn (ui : String) (acc : ℚ × Option String) (item : String × String × String) :
    ℚ × Option String :=
  let score := entryScore ui item.1 item.2.1
  if acc.1 < score then (score, some item.2.2) else acc

/-- Lines 95-119, `get_bot_response(user_input, kb_items)`: normalize
the input (`user_input.lower().strip()`, line 97), short-circuit on
empty input or empty index (line 98), run the scoring loop from
`(0.0, None)`, and return `best_answer` when `best_score >= 1.0` and
`""` otherwise (line 119).  (`best_answer` is `None` only while
`best_score` is still `0.0`, so the `getD ""` default on the
`best_score >= 1.0` branch is never taken.) -/
def get_bot_response (user_input : String)
    (kb_items : List (String × String × String)) : String :=
  let ui := pyStrip (pyLower user_input)
  if ui = "" ∨ kb_items = [] then ""
  else
    let r := kb_items.foldl (stepFn ui) ((0 : ℚ), (none : Option String))
    if 1 ≤ r.1 then r.2.getD "" else ""

/-- The maximum entry score over `idx`, folded from the initial
`best_score` value `b` exactly as the loop tracks it. -/
def maxFrom (ui : String) (b : ℚ) (idx : List (String × String × String)) : ℚ :=
  idx.foldl (fun m e => max m (entryScore ui e.1 e.2.1)) b

/-- The maximum entry score over `idx` starting from the loop's
initial `best_score = 0.0`. -/
def maxScore (ui : String) (idx : List (String × String × String)) : ℚ :=
  maxFrom ui 0 idx

/-!
Computable mirror of the scoring pipeline.  `Rat` addition does not
reduce inside the kernel (its normalization calls `Nat.gcd`, which is
compiled by well-founded recursion), so concrete evaluations are
carried out on a mirror that stores every score doubled, as a natural
number (all scores are non-negative multiples of 0.5).  The mirrors
are proved pointwise equal to the rational definitions, so every
concrete fact about `get_bot_response` can be settled by `decide` on
the mirror and transported.
-/
/-- Twice `entryScore`, as a natural number. -/
def entryScoreN (ui category query : String) : ℕ :=
  let ql := pyLower query
  (if ((alookup category cat_keywords).getD []).any (fun kw => pyIn kw ui) then 2 else 0)
    + (if pyIn ql ui then 4 else 0)
    + ((tokenSet ui) ∩ (tokenSet ql)).card

/-- Doubled-score mirror of `stepFn`. -/
def stepFnN (ui : String) (acc : ℕ × Option String) (item : String × String × String) :
    ℕ × Option String :=
  let score := entryScoreN ui item.1 item.2.1
  if acc.1 < score then (score, some item.2.2) else acc

/-- Doubled-score mirror of `get_bot_response`; every piece of it
reduces inside the kernel, so `decide` can evaluate it on concrete
inputs. -/
def get_bot_responseN (user_input : String)
    (kb_items : List (String × String × String)) : String :=
  let ui := pyStrip (pyLower user_input)
  if ui = "" ∨ kb_items = [] then ""
  else
    let r := kb_items.foldl (stepFnN ui) ((0 : ℕ), (none : Option String))
    if 2 ≤ r.1 then r.2.getD "" else ""

/-!
## The JSON data model, the loader (`load_any_kb`, lines 24-39) and
## flattening (`flatten_kb`, lines 41-51)
-/
/-- JSON-like Python values as produced by `json.load`: strings,
(integer) numbers, booleans, `None`, lists, and insertion-ordered
dicts with unique keys. -/
inductive Json where
  | str (s : String)
  | num (n : Int)
  | bool (b : Bool)
  | null
  | arr (xs : List Json)
  | obj (fields : List (String × Json))

mutual

/-- Embedding of Python `repr` on JSON-like values (used by `str` on
containers). -/
def pyRepr : Json → String
  | .null => "None"
  | .bool true => "True"
  | .bool false => "False"
  | .num n => toString n
  | .str s => "\x27" ++ s ++ "\x27"
  | .arr xs => "[" ++ pyReprList xs ++ "]"
  | .obj fs => "\x7b" ++ pyReprFields fs ++ "\x7d"

/-- Comma-separated `repr`s of a list's elements. -/
def pyReprList : List Json → String
  | [] => ""
  | [x] => pyRepr x
  | x :: xs => pyRepr x ++ ", " ++ pyReprList xs

/-- Comma-separated `repr`s of a dict's key/value pairs. -/
def pyReprFields : List (String × Json) → String
  | [] => ""
  | [kv] => "\x27" ++ kv.1 ++ "\x27: " ++ pyRepr kv.2
  | kv :: fs => "\x27" ++ kv.1 ++ "\x27: " ++ pyRepr kv.2 ++ ", " ++ pyReprFields fs

end

/-- Embedding of Python `str(x)`: the string itself for strings, the
`repr` otherwise. -/
def pyStr : Json → String
  | .str s => s
  | j => pyRepr j

/-- Embedding of `d.get(key, default)` on a parsed JSON dict. -/
def jsonGet (fields : List (String × Json)) (key : String) (dflt : Json) : Json :=
  (alookup key fields).getD dflt

/-- One iteration of the merge loop at lines 34-36: `for k, v in
data.items(): if k not in kb: kb[k] = v`.  Python dict insertion
appends the new key at the end of the iteration order. -/
def mergeSource (kb : List (String × Json)) (data : List (String × Json)) :
    List (String × Json) :=
  data.foldl (fun kb kv => if (alookup kv.1 kb).isSome then kb else kb ++ [kv]) kb

/-- Lines 24-39, `load_any_kb`, with the file I/O abstracted away: the
argument is the list of sources that exist and parse successfully, in
candidate-priority order (`dataset.json` before `diseases.json`); a
missing source is simply absent from the list and a malformed one is
diagnosed and skipped (lines 37-38), contributing nothing.  Each
parsed source is a JSON dict, i.e. an insertion-ordered association
list, and the sources are merged left to right by `mergeSource`. -/
def load_any_kb (sources : List (List (String × Json))) : List (String × Json) :=
  sources.foldl mergeSource []

/-- Lines 46-50, the body of the inner loop of `flatten_kb` for one
record `e`: `q = str(e.get("query", "")).strip()`, `a =
str(e.get("answer", "")).strip()`, `if q and a:
items.append((category, q, a))`.  A record that is not a dict has no
`.get` method, so Python raises `AttributeError`; this is embedded as
`Except.error`. -/
def flattenRecord (category : String) (e : Json) :
    Except String (Option (String × String × String)) :=
  match e with
  | .obj fields =>
    let q := pyStrip (pyStr (jsonGet fields "query" (.str "")))
    let a := pyStrip (pyStr (jsonGet fields "answer" (.str "")))
    .ok (if q ≠ "" ∧ a ≠ "" then some (category, q, a) else none)
  | _ => .error "AttributeError"

/-- The inner loop of `flatten_kb` over one category's list of
records, in source order; the first raising record aborts. -/
def flattenArr (category : String) : List Json → Except String (List (String × String × String))
  | [] => .ok []
  | e :: es =>
    match flattenRecord category e with
    | .error msg => .error msg
    | .ok o =>
      match flattenArr category es with
      | .error msg => .error msg
      | .ok t => .ok (match o with | some x => x :: t | none => t)

/-- Lines 41-51, `flatten_kb`: visit the categories in dict order;
a category whose value is not a list (`isinstance(entries, list)`,
line 45) contributes nothing; list-valued categories contribute their
kept records in order. -/
def flatten_kb : List (String × Json) → Except String (List (String × String × String))
  | [] => .ok []
  | (category, entries) :: rest =>
    match entries with
    | .arr es =>
      match flattenArr category es with
      | .error msg => .error msg
      | .ok here =>
        match flatten_kb rest with
        | .error msg => .error msg
        | .ok tail => .ok (here ++ tail)
    | _ => flatten_kb rest

/-!
## The rewrite wrapper (`get_hf_response`, lines 121-150)
-/
/-- Line 123: the user-facing fallback copy returned when the matcher
found nothing. -/
def fallback_message : String :=
  "I\x27m sorry, I couldn\x27t find a specific answer for that. Please try rephrasing your question."

/-- Lines 133-141: the prompt built from the question and the factual
answer. -/
def mkPrompt (user_input kb_answer : String) : String :=
  "\n        You are a friendly farming assistant. Your task is to answer the user\x27s question in a conversational and helpful way, based on the provided information.\n        Make the answer easy to understand and keep it concise (2-3 sentences).\n\n        User\x27s Question: \"" ++ user_input
    ++ "\"\n        Information to Use for the Answer: \"" ++ kb_answer
    ++ "\"\n\n        Your Friendly Answer:\n        "

/-- Lines 121-150, `get_hf_response`, with the two external
dependencies abstracted: `hfToken` is `st.secrets["HF_TOKEN"]` when
present (line 127), and `chat_completion` is the hosted-model call of
lines 132-147, returning the reply content, or `Except.error` when the
call raises.  Control flow from the source: empty `kb_answer` returns
the fallback message before anything else (lines 124-125); a missing
token returns `kb_answer` (lines 127-129); a raising call returns
`kb_answer` (lines 148-150); a successful call returns its content
(line 147). -/
def get_hf_response (hfToken : Option String)
    (chat_completion : String → Except String String)
    (user_input kb_answer : String) : String :=
  if kb_answer = "" then fallback_message
  else
    match hfToken with
    | none => kb_answer
    | some _ =>
      match chat_completion (mkPrompt user_input kb_answer) with
      | .ok content => content
      | .error _ => kb_answer

/-- Doubled-score mirror of `maxScore`. -/
def maxScoreN (ui : String) (idx : List (String × String × String)) : ℕ :=
  idx.foldl (fun m e => max m (entryScoreN ui e.1 e.2.1)) 0

/-!
## Spec-side mirror definitions

These definitions are written from the WORDS of `spec.md` (not from
the source) and exist only to be compared with the code-derived
definitions above in refinement theorems.
-/

/-- Category-keyword signal as the spec states it (§4.3 step 3, first
bullet): "If the normalized category name appears as a substring of
the normalized query, OR any keyword in that category's set appears as
a substring of the normalized query, add 1.0.  Categories absent from
the table contribute 0 here (never an error)." -/
def specCategorySignal (ui category : String) : ℚ :=
  match alookup category cat_keywords with
  | none => 0
  | some kws =>
    if pyIn (pyStrip (pyLower category)) ui || kws.any (fun kw => pyIn kw ui) then 1 else 0

/-- Flattening drop rule as the spec states it (§4.2): a record
contributes one Entry exactly when both its `query` and `answer`
fields are present and non-empty after trimming; every other record
contributes nothing.  Records here are JSON dicts. -/
def specFlattenRecord (category : String) (e : Json) : Option (String × String × String) :=
  match e with
  | .obj fields =>
    let q := pyStrip (pyStr (jsonGet fields "query" (.str "")))
    let a := pyStrip (pyStr (jsonGet fields "answer" (.str "")))
    if q ≠ "" ∧ a ≠ "" then some (category, q, a) else none
  | _ => none

/-- Flattening as the spec states it (§4.2): for every category in
order, for every record in source order, emit the record's Entry when
it qualifies. -/
def specFlatten : List (String × Json) → List (String × String × String)
  | [] => []
  | p :: rest =>
    (match p.2 with
      | .arr es => es.filterMap (specFlattenRecord p.1)
      | _ => []) ++ specFlatten rest

/-!
## Theorems
-/

-- sanity examples (kept as anonymous examples so they document the
-- intended Python behaviour)
example : pyTokens "  a  bc " = ["a", "bc"] := by decide

example : pyStrip "  hi  " = "hi" := by decide

example : pyLower "AbC" = "abc" := by decide

example : pyIn "" "xyz" = true := by decide

example : pyIn "pest" "pests here" = true := by decide

theorem entryScore_eq_N (ui category query : String) :
    entryScore ui category query = (entryScoreN ui category query : ℚ) / 2 := by
  unfold entryScore entryScoreN categorySignalScore substringScore overlapScore
  by_cases h1 : ((alookup category cat_keywords).getD []).any (fun kw => pyIn kw ui) <;>
    by_cases h2 : pyIn (pyLower query) ui <;>
      simp [h1, h2] <;> ring

theorem foldl_stepFn_eq_N (ui : String) (idx : List (String × String × String))
    (b : ℕ) (a : Option String) :
    idx.foldl (stepFn ui) ((b : ℚ) / 2, a)
      = (((idx.foldl (stepFnN ui) (b, a)).1 : ℚ) / 2, (idx.foldl (stepFnN ui) (b, a)).2) := by
  have hdiv : ∀ x y : ℕ, ((x : ℚ) / 2 < (y : ℚ) / 2 ↔ x < y) := fun x y => by
    rw [div_lt_div_iff_of_pos_right (show (0:ℚ) < 2 by norm_num)]
    exact_mod_cast Iff.rfl
  induction idx generalizing b a with
  | nil => simp
  | cons e t ih =>
    simp only [List.foldl_cons, stepFn, stepFnN, entryScore_eq_N]
    by_cases h : b < entryScoreN ui e.1 e.2.1
    · rw [if_pos ((hdiv _ _).mpr h), if_pos h]
      exact ih _ _
    · rw [if_neg (fun hc => h ((hdiv _ _).mp hc)), if_neg h]
      exact ih _ _

theorem get_bot_response_eq_N (user_input : String)
    (kb_items : List (String × String × String)) :
    get_bot_response user_input kb_items = get_bot_responseN user_input kb_items := by
  unfold get_bot_response get_bot_responseN
  by_cases h : pyStrip (pyLower user_input) = "" ∨ kb_items = []
  · simp [h]
  · simp only [h, if_false]
    have hfold := foldl_stepFn_eq_N (pyStrip (pyLower user_input)) kb_items 0 none
    norm_num at hfold
    rw [hfold]
    have hiff : (1 : ℚ) ≤ ((kb_items.foldl (stepFnN (pyStrip (pyLower user_input))) (0, none)).1 : ℚ) / 2
        ↔ 2 ≤ (kb_items.foldl (stepFnN (pyStrip (pyLower user_input))) (0, none)).1 := by
      rw [le_div_iff₀ (by norm_num)]
      exact_mod_cast Iff.rfl
    by_cases h2 : 2 ≤ (kb_items.foldl (stepFnN (pyStrip (pyLower user_input))) (0, none)).1
    · rw [if_pos (hiff.mpr h2), if_pos h2]
    · rw [if_neg (fun hc => h2 (hiff.mp hc)), if_neg h2]

/-!
Characterization of the scoring loop: its first component tracks the
maximum score, and its second component holds the answer of the FIRST
entry attaining that maximum (line 116 updates only on a strict
increase).
-/
theorem maxFrom_cons (ui : String) (b : ℚ) (e : String × String × String)
    (t : List (String × String × String)) :
    maxFrom ui b (e :: t) = maxFrom ui (max b (entryScore ui e.1 e.2.1)) t := rfl

theorem le_maxFrom (ui : String) (idx : List (String × String × String)) :
    ∀ b : ℚ, b ≤ maxFrom ui b idx := by
  induction idx with
  | nil => intro b; simp [maxFrom]
  | cons e t ih =>
    intro b
    rw [maxFrom_cons]
    exact le_trans (le_max_left _ _) (ih _)

theorem score_le_maxFrom (ui : String) (idx : List (String × String × String))
    (e : String × String × String) (he : e ∈ idx) :
    ∀ b : ℚ, entryScore ui e.1 e.2.1 ≤ maxFrom ui b idx := by
  induction idx with
  | nil => cases he
  | cons f t ih =>
    intro b
    rw [maxFrom_cons]
    rcases List.mem_cons.mp he with h | h
    · subst h
      exact le_trans (le_max_right _ _) (le_maxFrom ui t _)
    · exact ih h _

theorem maxFrom_eq_or_mem (ui : String) (idx : List (String × String × String)) :
    ∀ b : ℚ, maxFrom ui b idx = b
      ∨ ∃ e ∈ idx, maxFrom ui b idx = entryScore ui e.1 e.2.1 := by
  induction idx with
  | nil => intro b; left; simp [maxFrom]
  | cons f t ih =>
    intro b
    rw [maxFrom_cons]
    rcases ih (max b (entryScore ui f.1 f.2.1)) with h | ⟨e, he, h⟩
    · rcases max_cases b (entryScore ui f.1 f.2.1) with ⟨hm, _⟩ | ⟨hm, _⟩
      · left; rw [h, hm]
      · right; exact ⟨f, List.mem_cons_self f t, by rw [h, hm]⟩
    · right; exact ⟨e, List.mem_cons_of_mem f he, h⟩

theorem maxFrom_le (ui : String) (idx : List (String × String × String)) (c : ℚ)
    (h : ∀ e ∈ idx, entryScore ui e.1 e.2.1 ≤ c) :
    ∀ b : ℚ, b ≤ c → maxFrom ui b idx ≤ c := by
  induction idx with
  | nil => intro b hb; simpa [maxFrom] using hb
  | cons f t ih =>
    intro b hb
    rw [maxFrom_cons]
    exact ih (fun e he => h e (List.mem_cons_of_mem f he)) _
      (max_le hb (h f (List.mem_cons_self f t)))

theorem stepFn_pos (ui : String) (b : ℚ) (a : Option String) (e : String × String × String)
    (h : b < entryScore ui e.1 e.2.1) :
    stepFn ui (b, a) e = (entryScore ui e.1 e.2.1, some e.2.2) := by
  simp [stepFn, h]

theorem stepFn_neg (ui : String) (b : ℚ) (a : Option String) (e : String × String × String)
    (h : ¬ b < entryScore ui e.1 e.2.1) :
    stepFn ui (b, a) e = (b, a) := by
  simp [stepFn, h]

theorem foldl_fst_eq_maxFrom (ui : String) (idx : List (String × String × String)) :
    ∀ (b : ℚ) (a : Option String), (idx.foldl (stepFn ui) (b, a)).1 = maxFrom ui b idx := by
  induction idx with
  | nil => intro b a; simp [maxFrom]
  | cons e t ih =>
    intro b a
    rw [List.foldl_cons, maxFrom_cons]
    by_cases h : b < entryScore ui e.1 e.2.1
    · rw [stepFn_pos ui b a e h, max_eq_right h.le]
      exact ih _ _
    · rw [stepFn_neg ui b a e h, max_eq_left (not_lt.mp h)]
      exact ih _ _

/-- Pointwise-equal predicates find the same element. -/
theorem find?_ext (p q : α → Bool) (h : ∀ a, p a = q a) :
    ∀ l : List α, l.find? p = l.find? q := by
  intro l
  induction l with
  | nil => rfl
  | cons x t ih =>
    by_cases hx : p x
    · rw [List.find?_cons_of_pos _ hx, List.find?_cons_of_pos _ ((h x) ▸ hx)]
    · rw [List.find?_cons_of_neg _ hx, List.find?_cons_of_neg _ ((h x) ▸ hx), ih]

/-- The loop's tracked answer: once some entry strictly exceeds the
initial score `b`, the answer is that of the first entry attaining
the overall maximum; otherwise the initial answer survives. -/
theorem foldl_snd_char (ui : String) (idx : List (String × String × String)) :
    ∀ (b : ℚ) (a : Option String),
      (idx.foldl (stepFn ui) (b, a)).2 =
        if b < maxFrom ui b idx then
          (idx.find? (fun e => decide (maxFrom ui b idx ≤ entryScore ui e.1 e.2.1))).map
            (fun e => e.2.2)
        else a := by
  induction idx with
  | nil => intro b a; simp [maxFrom]
  | cons e t ih =>
    intro b a
    rw [List.foldl_cons, maxFrom_cons]
    set s := entryScore ui e.1 e.2.1 with hs
    by_cases h : b < s
    · rw [stepFn_pos ui b a e h, max_eq_right h.le, ih]
      have hbM : b < maxFrom ui s t := lt_of_lt_of_le h (le_maxFrom ui t s)
      rw [if_pos hbM]
      by_cases hsM : s < maxFrom ui s t
      · rw [if_pos hsM,
          List.find?_cons_of_neg _ (by simp only [hs, decide_eq_true_eq]; exact not_le.mpr hsM)]
      · rw [if_neg hsM,
          List.find?_cons_of_pos _ (by simp only [hs, decide_eq_true_eq]; exact not_lt.mp hsM)]
        rfl
    · rw [stepFn_neg ui b a e h, max_eq_left (not_lt.mp h), ih]
      by_cases hbM : b < maxFrom ui b t
      · rw [if_pos hbM, if_pos hbM,
          List.find?_cons_of_neg _ (by
            simp only [hs, decide_eq_true_eq]
            exact not_le.mpr (lt_of_le_of_lt (not_lt.mp h) hbM))]
      · rw [if_neg hbM, if_neg hbM]

theorem get_bot_response_of_max_lt (q : String) (idx : List (String × String × String))
    (hlt : maxScore (pyStrip (pyLower q)) idx < 1) :
    get_bot_response q idx = "" := by
  by_cases hcond : pyStrip (pyLower q) = "" ∨ idx = []
  · simp only [get_bot_response]
    rw [if_pos hcond]
  · simp only [get_bot_response]
    rw [if_neg hcond, foldl_fst_eq_maxFrom,
      show maxFrom (pyStrip (pyLower q)) 0 idx = maxScore (pyStrip (pyLower q)) idx from rfl,
      if_neg (not_le.mpr hlt)]

/-- When the normalized query is non-empty and the maximum score
reaches the 1.0 threshold, `get_bot_response` returns the answer of
the FIRST entry attaining the maximum score. -/
theorem get_bot_response_char (q : String) (idx : List (String × String × String))
    (hq : pyStrip (pyLower q) ≠ "")
    (hm : 1 ≤ maxScore (pyStrip (pyLower q)) idx) :
    ∃ e, idx.find? (fun e =>
        decide (maxScore (pyStrip (pyLower q)) idx
          ≤ entryScore (pyStrip (pyLower q)) e.1 e.2.1)) = some e
      ∧ e ∈ idx
      ∧ maxScore (pyStrip (pyLower q)) idx = entryScore (pyStrip (pyLower q)) e.1 e.2.1
      ∧ get_bot_response q idx = e.2.2 := by
  set ui := pyStrip (pyLower q) with hui
  have hne : idx ≠ [] := by
    intro h
    subst h
    simp only [maxScore, maxFrom, List.foldl_nil] at hm
    linarith
  have hattain : ∃ e ∈ idx, maxScore ui idx = entryScore ui e.1 e.2.1 := by
    rcases maxFrom_eq_or_mem ui idx 0 with h0 | h
    · exfalso
      rw [maxScore, h0] at hm
      linarith
    · exact h
  obtain ⟨e0, he0, heq0⟩ := hattain
  have hfind : (idx.find? (fun e =>
      decide (maxScore ui idx ≤ entryScore ui e.1 e.2.1))).isSome := by
    rcases hfo : idx.find? (fun e => decide (maxScore ui idx ≤ entryScore ui e.1 e.2.1))
      with _ | e'
    · exfalso
      have := List.find?_eq_none.mp hfo e0 he0
      rw [heq0] at this
      simp at this
    · rw [hfo]
      rfl
  obtain ⟨e, hfe⟩ := Option.isSome_iff_exists.mp hfind
  have hmem : e ∈ idx := List.mem_of_find?_eq_some hfe
  have hpe : maxScore ui idx ≤ entryScore ui e.1 e.2.1 := by
    have := List.find?_some hfe
    simpa using this
  have hmaxe : maxScore ui idx = entryScore ui e.1 e.2.1 :=
    le_antisymm hpe (score_le_maxFrom ui idx e hmem 0)
  refine ⟨e, hfe, hmem, hmaxe, ?_⟩
  simp only [get_bot_response]
  rw [← hui]
  rw [if_neg (by
    intro hor
    rcases hor with h | h
    · exact hq h
    · exact hne h)]
  rw [foldl_fst_eq_maxFrom, foldl_snd_char,
    show maxFrom ui 0 idx = maxScore ui idx from rfl,
    if_pos hm, if_pos (lt_of_lt_of_le zero_lt_one hm), hfe]
  rfl

example : entryScoreN "what is the best fertilizer for rice" "fertilizer" "best fertilizer for rice" = 10 := by decide

example : get_bot_response "what is the best fertilizer for rice"
    [("fertilizer", "best fertilizer for rice", "Use urea and DAP for rice in split doses.")]
    = "Use urea and DAP for rice in split doses." := by
  rw [get_bot_response_eq_N]; decide

example : get_bot_response "hello"
    [("fertilizer", "best fertilizer for rice", "Use urea and DAP for rice in split doses.")]
    = "" := by
  rw [get_bot_response_eq_N]; decide

example : flatten_kb [("soil", .arr [.obj [("query", .str " ph test "), ("answer", .str "Use a kit.")]])]
    = .ok [("soil", "ph test", "Use a kit.")] := rfl

example : flatten_kb [("soil", .arr [.obj [("query", .str "  "), ("answer", .str "A")]])]
    = .ok [] := rfl

example : flatten_kb [("soil", .str "oops")] = .ok [] := rfl

example : flatten_kb [("soil", .arr [.str "oops"])] = .error "AttributeError" := rfl

/-!
## Lookup lemmas for the loader merge
-/
theorem alookup_append (k : String) (l1 l2 : List (String × α)) :
    alookup k (l1 ++ l2) = (alookup k l1).or (alookup k l2) := by
  induction l1 with
  | nil => simp [alookup]
  | cons kv t ih =>
    by_cases h : kv.1 = k
    · simp [alookup, h]
    · simp [alookup, h, ih]

theorem alookup_mergeSource (k : String) (data : List (String × Json)) :
    ∀ kb : List (String × Json),
      alookup k (mergeSource kb data) = (alookup k kb).or (alookup k data) := by
  induction data with
  | nil => intro kb; simp [mergeSource, alookup]
  | cons kv t ih =>
    intro kb
    have hstep : mergeSource kb (kv :: t)
        = mergeSource (if (alookup kv.1 kb).isSome then kb else kb ++ [kv]) t := rfl
    rw [hstep, ih]
    by_cases hin : (alookup kv.1 kb).isSome
    · rw [if_pos hin]
      by_cases hk : kv.1 = k
      · subst hk
        obtain ⟨v, hv⟩ := Option.isSome_iff_exists.mp hin
        simp [alookup, hv]
      · simp [alookup, hk]
    · rw [if_neg hin, alookup_append]
      by_cases hk : kv.1 = k
      · subst hk
        rw [Option.not_isSome_iff_eq_none.mp hin]
        simp [alookup]
      · simp [alookup, hk]

theorem alookup_load_aux (k : String) (srcs : List (List (String × Json))) :
    ∀ kb : List (String × Json),
      alookup k (srcs.foldl mergeSource kb)
        = (alookup k kb).or (srcs.findSome? (fun s => alookup k s)) := by
  induction srcs with
  | nil => intro kb; simp [List.findSome?]
  | cons s t ih =>
    intro kb
    rw [List.foldl_cons, ih, alookup_mergeSource, Option.or_assoc]
    cases h : alookup k s
    · simp [List.findSome?_cons, h]
    · simp [List.findSome?_cons, h]

/-!
## Further helper lemmas
-/

theorem div2_le_div2 (x y : ℕ) : ((x : ℚ) / 2 ≤ (y : ℚ) / 2) ↔ x ≤ y := by
  rw [div_le_div_iff_of_pos_right (show (0:ℚ) < 2 by norm_num)]
  exact_mod_cast Iff.rfl

theorem cast_div2_max (x y : ℕ) :
    max ((x : ℚ) / 2) ((y : ℚ) / 2) = ((max x y : ℕ) : ℚ) / 2 := by
  rcases le_total x y with h | h
  · rw [max_eq_right ((div2_le_div2 x y).mpr h), max_eq_right h]
  · rw [max_eq_left ((div2_le_div2 y x).mpr h), max_eq_left h]

theorem maxFrom_eq_N (ui : String) (idx : List (String × String × String)) :
    ∀ b : ℕ,
      maxFrom ui ((b : ℚ) / 2) idx
        = ((idx.foldl (fun m e => max m (entryScoreN ui e.1 e.2.1)) b : ℕ) : ℚ) / 2 := by
  induction idx with
  | nil => intro b; simp [maxFrom]
  | cons e t ih =>
    intro b
    rw [maxFrom_cons, List.foldl_cons, entryScore_eq_N, cast_div2_max]
    exact ih _

theorem maxScore_eq_N (ui : String) (idx : List (String × String × String)) :
    maxScore ui idx = (maxScoreN ui idx : ℚ) / 2 := by
  rw [maxScore, show (0 : ℚ) = ((0 : ℕ) : ℚ) / 2 by norm_num, maxFrom_eq_N]
  rfl

theorem categorySignalScore_nonneg (ui category : String) :
    0 ≤ categorySignalScore ui category := by
  unfold categorySignalScore
  split <;> norm_num

theorem substringScore_nonneg (ui ql : String) : 0 ≤ substringScore ui ql := by
  unfold substringScore
  split <;> norm_num

theorem overlapScore_nonneg (ui ql : String) : 0 ≤ overlapScore ui ql := by
  unfold overlapScore
  positivity

theorem pyIn_trans (a b ui : String) (hab : a.data <:+: b.data) (h : pyIn b ui = true) :
    pyIn a ui = true := by
  simp only [pyIn, decide_eq_true_eq] at h ⊢
  exact hab.trans h

/-- For a category present in the keyword table whose (normalized)
name contains some listed keyword as an infix, the code's keyword-only
test agrees with the spec's "name-substring OR keyword-substring"
test: whenever the name occurs in the query, so does that keyword. -/
theorem categorySignal_spec_case (ui name kw : String) (kws : List String)
    (hlook : alookup name cat_keywords = some kws)
    (hnorm : pyStrip (pyLower name) = name)
    (hkw : kw ∈ kws)
    (hinf : kw.data <:+: name.data) :
    categorySignalScore ui name = specCategorySignal ui name := by
  unfold categorySignalScore specCategorySignal
  rw [hlook, hnorm]
  simp only [Option.getD_some]
  cases hn : pyIn name ui
  · simp [hn]
  · have hany : kws.any (fun kw => pyIn kw ui) = true :=
      List.any_eq_true.mpr ⟨kw, hkw, pyIn_trans kw name ui hinf hn⟩
    simp [hn, hany]

/-!
## Claim theorems
-/

/-- C8: for every index, `match` applied to a query that is empty or
whitespace-only after normalization (trim, lower-case) returns absence
(the empty string) immediately, and for every query, `match` applied
to an empty index returns absence; the embedding is a total function,
so neither case raises an error. -/
theorem C8_empty_query_or_index (q : String) (idx : List (String × String × String)) :
    (pyStrip (pyLower q) = "" → get_bot_response q idx = "")
    ∧ get_bot_response q [] = "" := by
  constructor
  · intro h
    simp only [get_bot_response]
    rw [if_pos (Or.inl h)]
  · simp only [get_bot_response]
    rw [if_pos (Or.inr trivial)]

/-- Witness for C8 at concrete inputs: a whitespace-only query with a
non-empty index, and a non-empty query with an empty index. -/
theorem C8_witness :
    get_bot_response "   " [("a", "b", "c")] = ""
    ∧ get_bot_response "hello" [] = "" :=
  ⟨(C8_empty_query_or_index "   " [("a", "b", "c")]).1 (by decide),
   (C8_empty_query_or_index "hello" []).2⟩

/-- C9: the answer-rewriting step is invoked only when the factual
answer is non-empty (for an empty factual answer the result is the
fallback message whatever the token and service are, so the service
is never consulted), and whenever the rewriting service is
unavailable (missing token) or fails (raises), the factual answer
itself is returned verbatim. -/
theorem C9_rewrite_fallback (user_input kb_answer t : String)
    (svc : String → Except String String) :
    (kb_answer = "" → ∀ (tok : Option String) (svc2 : String → Except String String),
        get_hf_response tok svc2 user_input kb_answer = fallback_message)
    ∧ (kb_answer ≠ "" → get_hf_response none svc user_input kb_answer = kb_answer)
    ∧ (kb_answer ≠ "" → ∀ msg, svc (mkPrompt user_input kb_answer) = Except.error msg →
        get_hf_response (some t) svc user_input kb_answer = kb_answer) := by
  refine ⟨?_, ?_, ?_⟩
  · intro h tok svc2
    simp [get_hf_response, h]
  · intro h
    simp [get_hf_response, h]
  · intro h msg hmsg
    simp [get_hf_response, h, hmsg]

/-- Witness for C9 at concrete inputs: a failing service call, a
missing token, and an empty factual answer. -/
theorem C9_witness :
    get_hf_response (some "token") (fun _ => Except.error "connection failed") "q" "Use urea."
      = "Use urea."
    ∧ get_hf_response none (fun _ => Except.ok "rephrased") "q" "Use urea." = "Use urea."
    ∧ get_hf_response (some "token") (fun _ => Except.ok "rephrased") "q" "" = fallback_message :=
  ⟨(C9_rewrite_fallback "q" "Use urea." "token" (fun _ => Except.error "connection failed")).2.2
      (by decide) "connection failed" rfl,
   (C9_rewrite_fallback "q" "Use urea." "token" (fun _ => Except.ok "rephrased")).2.1 (by decide),
   (C9_rewrite_fallback "q" "" "token" (fun _ => Except.ok "rephrased")).1 rfl
      (some "token") (fun _ => Except.ok "rephrased")⟩

/-- C6: the loader merges sources in priority order with
first-source-wins at the category-key level: the merged knowledge
base's value at any key `k` is exactly the value of the earliest
source defining `k` (later sources' content for `k` is discarded
entirely, with no entry-level merging). -/
theorem C6_merge_first_source_wins (sources : List (List (String × Json))) (k : String) :
    alookup k (load_any_kb sources) = sources.findSome? (fun s => alookup k s) := by
  unfold load_any_kb
  rw [alookup_load_aux]
  simp [alookup]

/-- Counterexample to C10 as stated: `flatten_kb` is NOT total on
every dictionary input — a list-valued category holding a non-dict
record makes the code call `.get` on a non-dict, which raises
`AttributeError` (embedded as `Except.error`). -/
theorem C10_counterexample :
    flatten_kb [("cat", Json.arr [Json.str "hello"])] = Except.error "AttributeError" := rfl

/-- C10 (amended): a category whose value is not a list contributes no
entries and is silently dropped wholesale — the result on the
remaining categories is unchanged and no error is raised for that
category.  (Totality on EVERY dictionary fails: see the
counterexample, where a list element that is not a dict raises.) -/
theorem C10_nonlist_skipped (category : String) (v : Json) (rest : List (String × Json))
    (h : ∀ es : List Json, v ≠ Json.arr es) :
    flatten_kb ((category, v) :: rest) = flatten_kb rest := by
  cases v with
  | arr es => exact absurd rfl (h es)
  | str s => rfl
  | num n => rfl
  | bool b => rfl
  | null => rfl
  | obj fs => rfl

/-- Witness for C10 (amended) at a concrete input: a string-valued
category is dropped wholesale. -/
theorem C10_witness :
    flatten_kb [("cat", Json.str "not a list"),
        ("soil", Json.arr [Json.obj [("query", Json.str "q"), ("answer", Json.str "a")]])]
      = flatten_kb [("soil", Json.arr [Json.obj [("query", Json.str "q"), ("answer", Json.str "a")]])] :=
  C10_nonlist_skipped "cat" (Json.str "not a list")
    [("soil", Json.arr [Json.obj [("query", Json.str "q"), ("answer", Json.str "a")]])]
    (fun _ h => Json.noConfusion h)

/-- Counterexample to C1 as stated: the code applies NO token-length
filter.  The normalized query "ab cd" and template "ab ef" share
exactly one token, "ab", of length 2; under the claim the
token-overlap signal — and here the whole entry score, since no other
signal fires — would be 0, but the code scores the entry 0.5. -/
theorem C1_counterexample :
    (tokenSet "ab cd" ∩ tokenSet (pyLower "ab ef")) = {"ab"}
    ∧ "ab".length = 2
    ∧ entryScore "ab cd" "nocat" "ab ef" = 1 / 2
    ∧ entryScore "ab cd" "nocat" "ab ef" ≠ 0 := by
  refine ⟨by decide, by decide, ?_, ?_⟩
  · rw [entryScore_eq_N]
    norm_num [show entryScoreN "ab cd" "nocat" "ab ef" = 1 from by decide]
  · rw [entryScore_eq_N]
    norm_num [show entryScoreN "ab cd" "nocat" "ab ef" = 1 from by decide]

/-- C1 (amended): the token-overlap signal's token sets are NOT
filtered by length: any token present in both raw token sets — the
hypotheses place no constraint on the length of `t`, so tokens of
length 1 or 2 qualify — contributes 0.5 to the signal and hence to
the entry's score. -/
theorem C1_amended_no_token_filter (ui q t category : String)
    (h1 : t ∈ tokenSet ui) (h2 : t ∈ tokenSet (pyLower q)) :
    (1 : ℚ) / 2 ≤ overlapScore ui (pyLower q)
    ∧ categorySignalScore ui category + substringScore ui (pyLower q) + 1 / 2
        ≤ entryScore ui category q := by
  have hcard : 1 ≤ ((tokenSet ui) ∩ (tokenSet (pyLower q))).card :=
    Finset.card_pos.mpr ⟨t, Finset.mem_inter.mpr ⟨h1, h2⟩⟩
  have hover : (1 : ℚ) / 2 ≤ overlapScore ui (pyLower q) := by
    unfold overlapScore
    have hc : (1 : ℚ) ≤ (((tokenSet ui) ∩ (tokenSet (pyLower q))).card : ℚ) := by
      exact_mod_cast hcard
    nlinarith
  refine ⟨hover, ?_⟩
  show _ ≤ categorySignalScore ui category + substringScore ui (pyLower q)
    + overlapScore ui (pyLower q)
  linarith

/-- Witness for C1 (amended) at a concrete input: the shared token
"ab" has length 2 and still contributes. -/
theorem C1_witness :
    (1 : ℚ) / 2 ≤ overlapScore "ab cd" (pyLower "ab ef") :=
  (C1_amended_no_token_filter "ab cd" "ab ef" "ab" "nocat" (by decide) (by decide)).1

/-- Counterexample to C2 as stated: the code has no template-word
sub-condition in the substring-match signal.  With normalized query
"abcd" and template "abcd xyz", the template word "abcd" (length 4 >
2) occurs in the query, so under the claim the signal would be +2.0
and the score ≥ 2; in the code the signal contributes 0 (the full
template is not a substring of the query) and the entry's total score
is 0.5. -/
theorem C2_counterexample :
    ("abcd" ∈ tokenSet (pyLower "abcd xyz") ∧ 2 < "abcd".length ∧ pyIn "abcd" "abcd" = true)
    ∧ substringScore "abcd" (pyLower "abcd xyz") = 0
    ∧ entryScore "abcd" "nocat" "abcd xyz" = 1 / 2
    ∧ ¬ (2 ≤ entryScore "abcd" "nocat" "abcd xyz") := by
  refine ⟨by decide, ?_, ?_, ?_⟩
  · simp [substringScore, show pyIn (pyLower "abcd xyz") "abcd" = false from by decide]
  · rw [entryScore_eq_N]
    norm_num [show entryScoreN "abcd" "nocat" "abcd xyz" = 1 from by decide]
  · rw [entryScore_eq_N]
    norm_num [show entryScoreN "abcd" "nocat" "abcd xyz" = 1 from by decide]

/-- C2 (amended): the substring-match signal is controlled solely by
the full-template condition: when the full normalized template occurs
in the normalized query, the signal contributes exactly +2.0 — even
when template words also occur in the query, the two conditions are
not additive; when the full template does not occur, the signal
contributes nothing, whatever the template's individual words do. -/
theorem C2_amended_full_template_only (ui category q : String) :
    (pyIn (pyLower q) ui = true →
      entryScore ui category q
        = categorySignalScore ui category + 2 + overlapScore ui (pyLower q))
    ∧ (pyIn (pyLower q) ui = false →
      entryScore ui category q
        = categorySignalScore ui category + overlapScore ui (pyLower q)) := by
  constructor
  · intro h
    have hsub : substringScore ui (pyLower q) = 2 := by
      simp [substringScore, h]
    show categorySignalScore ui category + substringScore ui (pyLower q)
      + overlapScore ui (pyLower q) = _
    rw [hsub]
  · intro h
    have hsub : substringScore ui (pyLower q) = 0 := by
      simp [substringScore, h]
    show categorySignalScore ui category + substringScore ui (pyLower q)
      + overlapScore ui (pyLower q) = _
    rw [hsub]
    ring

/-- Witness for C2 (amended) at a concrete input where BOTH the
full-template condition and the word condition hold: the contribution
is exactly 2, not 4. -/
theorem C2_witness :
    entryScore "abcd xyz" "nocat" "abcd xyz"
      = categorySignalScore "abcd xyz" "nocat" + 2 + overlapScore "abcd xyz" (pyLower "abcd xyz") :=
  (C2_amended_full_template_only "abcd xyz" "nocat" "abcd xyz").1 (by decide)

/-- C3: for every query and category, the code's category-keyword
signal equals the spec's signal: 1.0 exactly when the category is in
the fixed table AND (the normalized category name occurs in the
normalized query OR one of its keywords does); a category absent from
the table contributes 0, and the embedding is total, so no error is
possible.  (For every tabled category the name-substring disjunct is
subsumed by a keyword: each name contains one of its own keywords.) -/
theorem C3_category_signal_spec (ui category : String) :
    categorySignalScore ui category = specCategorySignal ui category := by
  by_cases h1 : "fertilizer" = category
  · subst h1
    exact categorySignal_spec_case ui "fertilizer" "fertilizer"
      ["fertilizer", "manure", "nutrient"] (by decide) (by decide) (by decide) (by decide)
  by_cases h2 : "pests" = category
  · subst h2
    exact categorySignal_spec_case ui "pests" "pest"
      ["pest", "insect", "worm", "spray"] (by decide) (by decide) (by decide) (by decide)
  by_cases h3 : "irrigation" = category
  · subst h3
    exact categorySignal_spec_case ui "irrigation" "irrigation"
      ["irrigation", "water", "watering"] (by decide) (by decide) (by decide) (by decide)
  by_cases h4 : "weather" = category
  · subst h4
    exact categorySignal_spec_case ui "weather" "weather"
      ["weather", "rain", "forecast"] (by decide) (by decide) (by decide) (by decide)
  by_cases h5 : "soil" = category
  · subst h5
    exact categorySignal_spec_case ui "soil" "soil"
      ["soil", "ph", "testing"] (by decide) (by decide) (by decide) (by decide)
  by_cases h6 : "market" = category
  · subst h6
    exact categorySignal_spec_case ui "market" "market"
      ["price", "market", "msp", "sell"] (by decide) (by decide) (by decide) (by decide)
  have hnone : alookup category cat_keywords = none := by
    simp [alookup, cat_keywords, h1, h2, h3, h4, h5, h6]
  unfold categorySignalScore specCategorySignal
  rw [hnone]
  simp

/-- A category list whose records are all dicts flattens without
error, to exactly the records kept by the spec's drop rule, in source
order. -/
theorem flattenArr_ok (category : String) (es : List Json)
    (h : ∀ e ∈ es, ∃ fs, e = Json.obj fs) :
    flattenArr category es = .ok (es.filterMap (specFlattenRecord category)) := by
  induction es with
  | nil => rfl
  | cons e t ih =>
    obtain ⟨fs, rfl⟩ := h e (List.mem_cons_self e t)
    have ht := ih (fun e2 he2 => h e2 (List.mem_cons_of_mem _ he2))
    simp only [flattenArr, flattenRecord, ht, List.filterMap_cons, specFlattenRecord]
    by_cases hqa : pyStrip (pyStr (jsonGet fs "query" (.str ""))) ≠ ""
        ∧ pyStrip (pyStr (jsonGet fs "answer" (.str ""))) ≠ ""
    · simp [hqa]
    · simp [hqa]

/-- C7: on every knowledge base whose list-valued categories contain
only dict records, `flatten_kb` raises nothing and emits exactly one
entry, in per-category source order, for every record whose `query`
and `answer` are non-empty after trimming, dropping every other
record (missing field, or empty/whitespace-only after trimming). -/
theorem C7_flatten_drop_rule (kb : List (String × Json))
    (hrec : ∀ p ∈ kb, ∀ es : List Json, p.2 = Json.arr es → ∀ e ∈ es, ∃ fs, e = Json.obj fs) :
    flatten_kb kb = .ok (specFlatten kb) := by
  induction kb with
  | nil => rfl
  | cons p rest ih =>
    obtain ⟨category, v⟩ := p
    have hrest := ih (fun p2 hp2 => hrec p2 (List.mem_cons_of_mem _ hp2))
    cases v with
    | arr es =>
      have hes := hrec (category, .arr es) (List.mem_cons_self _ _) es rfl
      simp only [flatten_kb, specFlatten, flattenArr_ok category es hes, hrest]
    | str s => simpa [flatten_kb, specFlatten] using hrest
    | num n => simpa [flatten_kb, specFlatten] using hrest
    | bool b => simpa [flatten_kb, specFlatten] using hrest
    | null => simpa [flatten_kb, specFlatten] using hrest
    | obj fs => simpa [flatten_kb, specFlatten] using hrest

/-- Witness for C7 at a concrete input: a record with a
whitespace-only `query` and a non-empty `answer` is dropped, and a
fully populated record is kept exactly once. -/
theorem C7_witness :
    flatten_kb [("soil",
        Json.arr [Json.obj [("query", Json.str "  "), ("answer", Json.str "A")],
                  Json.obj [("query", Json.str "ph level"), ("answer", Json.str "B")]])]
      = Except.ok [("soil", "ph level", "B")] := by
  have h := C7_flatten_drop_rule
    [("soil",
        Json.arr [Json.obj [("query", Json.str "  "), ("answer", Json.str "A")],
                  Json.obj [("query", Json.str "ph level"), ("answer", Json.str "B")]])]
    (by
      intro p hp es hes e he
      simp only [List.mem_singleton] at hp
      subst hp
      injection hes with hes2
      subst hes2
      simp only [List.mem_cons, List.not_mem_nil, or_false] at he
      rcases he with rfl | rfl
      · exact ⟨_, rfl⟩
      · exact ⟨_, rfl⟩)
  rw [h]
  rfl

/-- C4: for a query that stays non-empty after normalization and an
index of entries with non-empty answers (as `flatten_kb` guarantees),
`match` returns an answer (a non-empty string) exactly when the
maximum score over the index is ≥ 1.0; in particular an index whose
entries all score ≤ 0.5 — e.g. a single entry sharing one 3+-letter
token with the query and nothing else — yields absence, while any
entry whose normalized template occurs verbatim in the normalized
query (score ≥ 2.0) forces an answer to be returned. -/
theorem C4_threshold (q : String) (idx : List (String × String × String))
    (hq : pyStrip (pyLower q) ≠ "")
    (hA : ∀ e ∈ idx, e.2.2 ≠ "") :
    (get_bot_response q idx ≠ "" ↔ 1 ≤ maxScore (pyStrip (pyLower q)) idx)
    ∧ ((∀ e ∈ idx, entryScore (pyStrip (pyLower q)) e.1 e.2.1 ≤ 1 / 2) →
        get_bot_response q idx = "")
    ∧ (∀ e ∈ idx, pyIn (pyLower e.2.1) (pyStrip (pyLower q)) = true →
        get_bot_response q idx ≠ "") := by
  have hiff : get_bot_response q idx ≠ "" ↔ 1 ≤ maxScore (pyStrip (pyLower q)) idx := by
    constructor
    · intro hr
      by_contra hm
      exact hr (get_bot_response_of_max_lt q idx (not_le.mp hm))
    · intro hm
      obtain ⟨e, _, hmem, _, hresp⟩ := get_bot_response_char q idx hq hm
      rw [hresp]
      exact hA e hmem
  refine ⟨hiff, ?_, ?_⟩
  · intro hall
    apply get_bot_response_of_max_lt
    have hb : maxFrom (pyStrip (pyLower q)) 0 idx ≤ 1 / 2 :=
      maxFrom_le _ idx (1 / 2) hall 0 (by norm_num)
    have hms : maxScore (pyStrip (pyLower q)) idx = maxFrom (pyStrip (pyLower q)) 0 idx := rfl
    linarith
  · intro e he hinf
    apply hiff.mpr
    have hsub : substringScore (pyStrip (pyLower q)) (pyLower e.2.1) = 2 := by
      simp [substringScore, hinf]
    have hscore : 2 ≤ entryScore (pyStrip (pyLower q)) e.1 e.2.1 := by
      have h1 := categorySignalScore_nonneg (pyStrip (pyLower q)) e.1
      have h3 := overlapScore_nonneg (pyStrip (pyLower q)) (pyLower e.2.1)
      have hdec : entryScore (pyStrip (pyLower q)) e.1 e.2.1
          = categorySignalScore (pyStrip (pyLower q)) e.1
            + substringScore (pyStrip (pyLower q)) (pyLower e.2.1)
            + overlapScore (pyStrip (pyLower q)) (pyLower e.2.1) := rfl
      rw [hdec, hsub]
      linarith
    have hmf := score_le_maxFrom (pyStrip (pyLower q)) idx e he 0
    have hms : maxScore (pyStrip (pyLower q)) idx = maxFrom (pyStrip (pyLower q)) 0 idx := rfl
    linarith

/-- Witness for C4 at concrete inputs: a verbatim-template query is
answered; a query sharing only the token "zzz" with its only entry
(score 0.5) is not. -/
theorem C4_witness :
    get_bot_response "what is the best fertilizer for rice"
        [("fertilizer", "best fertilizer for rice", "Use urea and DAP for rice in split doses.")]
      ≠ ""
    ∧ get_bot_response "zzz qqq" [("nocat", "zzz www", "SOME ANSWER")] = "" := by
  constructor
  · exact (C4_threshold "what is the best fertilizer for rice"
      [("fertilizer", "best fertilizer for rice", "Use urea and DAP for rice in split doses.")]
      (by decide) (by decide)).2.2
      ("fertilizer", "best fertilizer for rice", "Use urea and DAP for rice in split doses.")
      (by decide) (by decide)
  · apply (C4_threshold "zzz qqq" [("nocat", "zzz www", "SOME ANSWER")]
      (by decide) (by decide)).2.1
    intro e he
    simp only [List.mem_singleton] at he
    subst he
    rw [show pyStrip (pyLower "zzz qqq") = "zzz qqq" from by decide]
    have hs : entryScore "zzz qqq" "nocat" "zzz www" = 1 / 2 := by
      rw [entryScore_eq_N]
      norm_num [show entryScoreN "zzz qqq" "nocat" "zzz www" = 1 from by decide]
    rw [hs]

/-- C5: when the 1.0 threshold is reached, `match` returns the answer
of the FIRST entry of the index attaining the maximal score (that is
what `List.find?` with the predicate "score equals at least the
maximum" selects), so a later entry of equal or lower score never
replaces the tracked answer. -/
theorem C5_first_max_tie_break (q : String) (idx : List (String × String × String))
    (hq : pyStrip (pyLower q) ≠ "")
    (hm : 1 ≤ maxScore (pyStrip (pyLower q)) idx) :
    ∃ e, idx.find? (fun e =>
        decide (maxScore (pyStrip (pyLower q)) idx
          ≤ entryScore (pyStrip (pyLower q)) e.1 e.2.1)) = some e
      ∧ get_bot_response q idx = e.2.2 := by
  obtain ⟨e, hf, _, _, hr⟩ := get_bot_response_char q idx hq hm
  exact ⟨e, hf, hr⟩

/-- Witness for C5 at a concrete input: both entries score exactly
1.0 (category keyword only) and the first one's answer is returned. -/
theorem C5_witness :
    entryScore "fertilizer" "fertilizer" "aaa" = entryScore "fertilizer" "fertilizer" "bbb"
    ∧ get_bot_response "fertilizer"
        [("fertilizer", "aaa", "FIRST"), ("fertilizer", "bbb", "SECOND")] = "FIRST" := by
  have hui : pyStrip (pyLower "fertilizer") = "fertilizer" := by decide
  have hs1 : entryScore "fertilizer" "fertilizer" "aaa" = 1 := by
    rw [entryScore_eq_N]
    norm_num [show entryScoreN "fertilizer" "fertilizer" "aaa" = 2 from by decide]
  have hs2 : entryScore "fertilizer" "fertilizer" "bbb" = 1 := by
    rw [entryScore_eq_N]
    norm_num [show entryScoreN "fertilizer" "fertilizer" "bbb" = 2 from by decide]
  have hmax : maxScore (pyStrip (pyLower "fertilizer"))
      [("fertilizer", "aaa", "FIRST"), ("fertilizer", "bbb", "SECOND")] = 1 := by
    rw [maxScore_eq_N]
    norm_num [show maxScoreN (pyStrip (pyLower "fertilizer"))
      [("fertilizer", "aaa", "FIRST"), ("fertilizer", "bbb", "SECOND")] = 2 from by decide]
  obtain ⟨e, hf, hr⟩ := C5_first_max_tie_break "fertilizer"
    [("fertilizer", "aaa", "FIRST"), ("fertilizer", "bbb", "SECOND")]
    (by decide) (le_of_eq hmax.symm)
  have hfind : List.find? (fun e =>
      decide (maxScore (pyStrip (pyLower "fertilizer"))
          [("fertilizer", "aaa", "FIRST"), ("fertilizer", "bbb", "SECOND")]
        ≤ entryScore (pyStrip (pyLower "fertilizer")) e.1 e.2.1))
      [("fertilizer", "aaa", "FIRST"), ("fertilizer", "bbb", "SECOND")]
      = some ("fertilizer", "aaa", "FIRST") := by
    apply List.find?_cons_of_pos
    simp only [decide_eq_true_eq]
    rw [hmax, hui]
    rw [hs1]
  rw [hf] at hfind
  injection hfind with he
  subst he
  exact ⟨hs1.trans hs2.symm, hr⟩
